import Mathlib

set_option maxRecDepth 20000

/-
Verification development for the subtrack transaction-extraction engine
(backend/fast_parser.py, backend/slow_parser.py, backend/services/parsers.py,
backend/routers/processing.py).

Modelling conventions:
* text is modelled as List Char (converted to and from String at the edges);
* numeric values are exact rationals: decimal text parses exactly, and
  Python's round(x, 2) is modelled as round-half-even at two decimals;
* Python's stable list.sort is modelled by a stable insertion sort (stable
  sorts by the same total preorder agree extensionally);
* Python dicts that may or may not carry a key are modelled with Option
  fields.
-/

/-! ### Python-style character classes and list/string utilities -/

def isPySpace (c : Char) : Bool :=
  c == ' ' || c == '\t' || c == '\n' || c == '\r' || c == '\x0b' || c == '\x0c'

/-- Python regex \w on the ASCII inputs handled here: [A-Za-z0-9_]. -/
def isPyWordChar (c : Char) : Bool :=
  c.isAlphanum || c == '_'

def lowerChars (cs : List Char) : List Char :=
  cs.map Char.toLower

/-- Python str.strip(): drop whitespace from both ends. -/
def pyStrip (cs : List Char) : List Char :=
  ((cs.dropWhile isPySpace).reverse.dropWhile isPySpace).reverse

/-- Does hay start with pat? -/
def startsWithL : List Char → List Char → Bool
  | _, [] => true
  | [], _ :: _ => false
  | a :: as, b :: bs => a == b && startsWithL as bs

/-- Python `pat in hay` substring test. -/
def containsL (hay pat : List Char) : Bool :=
  match hay with
  | [] => startsWithL [] pat
  | _ :: rest => startsWithL hay pat || containsL rest pat

/-- Python hay.endswith(pat). -/
def endsWithL (hay pat : List Char) : Bool :=
  startsWithL hay.reverse pat.reverse

def containsStr (hay pat : String) : Bool :=
  containsL hay.data pat.data

/-- Python hay.replace(pat, ""): remove all non-overlapping occurrences,
left to right.  Fuel-driven recursion (fuel ≥ length of hay suffices). -/
def removeAllAux (pat : List Char) : Nat → List Char → List Char
  | 0, cs => cs
  | _ + 1, [] => []
  | fuel + 1, c :: cs =>
    if pat ≠ [] ∧ startsWithL (c :: cs) pat then
      removeAllAux pat fuel ((c :: cs).drop pat.length)
    else
      c :: removeAllAux pat fuel cs

def removeAllL (hay pat : List Char) : List Char :=
  removeAllAux pat hay.length hay

/-- Python text.split(sep) for a single separator char (empty pieces kept). -/
def splitOnChar (sep : Char) (cs : List Char) : List (List Char) :=
  match cs with
  | [] => [[]]
  | c :: rest =>
    let r := splitOnChar sep rest
    if c == sep then [] :: r
    else
      match r with
      | [] => [[c]]
      | p :: ps => (c :: p) :: ps

/-- Python s.split() with no argument: split on whitespace runs, no empties. -/
def pySplitWs (cs : List Char) : List (List Char) :=
  match cs with
  | [] => []
  | c :: rest =>
    if isPySpace c then pySplitWs rest
    else
      (c :: rest.takeWhile (fun d => !isPySpace d)) ::
        pySplitWs (rest.dropWhile (fun d => !isPySpace d))
termination_by cs.length
decreasing_by
  all_goals simp only [List.length_cons]
  · omega
  · have h : (rest.dropWhile (fun d => !isPySpace d)).length ≤ rest.length := by
      induction rest with
      | nil => simp
      | cons c2 cs2 ih =>
        rw [List.dropWhile_cons]
        split
        · exact Nat.le_trans ih (Nat.le_succ _)
        · exact Nat.le_refl _
    omega

/-- Python " ".join(pieces). -/
def joinSpace (ps : List (List Char)) : List Char :=
  match ps with
  | [] => []
  | [p] => p
  | p :: q :: rest => p ++ ' ' :: joinSpace (q :: rest)

/-- Python ' '.join(s.split()): collapse whitespace runs to single spaces. -/
def collapseWs (cs : List Char) : List Char :=
  joinSpace (pySplitWs cs)

/-- Lexicographic code-point comparison, Python string ≤. -/
def lexLeC : List Char → List Char → Bool
  | [], _ => true
  | _ :: _, [] => false
  | a :: as, b :: bs =>
    a.toNat < b.toNat || (a.toNat == b.toNat && lexLeC as bs)

def strLeB (a b : String) : Bool := lexLeC a.data b.data

/-! ### Stable insertion sort

Python's list.sort is a stable sort; any two stable sorts by the same total
preorder produce the same list, so a stable insertion sort models it
exactly. -/

def insertStable (le : α → α → Bool) (x : α) : List α → List α
  | [] => [x]
  | y :: ys => if le y x then y :: insertStable le x ys else x :: y :: ys

def pySort (le : α → α → Bool) (l : List α) : List α :=
  l.foldl (fun acc x => insertStable le x acc) []

/-! ### Exact rationals: decimal parsing and Python round(x, 2)

Numeric text is parsed into exact rationals.  Python's round-to-2-decimals
is modelled as round-half-even of q*100 (Python rounds half to even). -/

def digitsToNat (ds : List Char) : Nat :=
  ds.foldl (fun a c => 10 * a + (c.toNat - 48)) 0

/-- Exact value of a decimal string of digits/commas with at most one point,
as produced by the amount regex after float(a.replace(",", "")). -/
def parseDecQ (cs : List Char) : ℚ :=
  let cs2 := cs.filter (fun c => c ≠ ',')
  match splitOnChar '.' cs2 with
  | [ip] => (digitsToNat ip : ℚ)
  | [ip, fp] => (digitsToNat ip : ℚ) + (digitsToNat fp : ℚ) / (10 : ℚ) ^ fp.length
  | _ => 0

/-- Python float(text) on plain decimal text: optional sign, integer part,
optional fractional part, at least one digit, nothing else.  (Exponent and
inf/nan forms are not currency-shaped and are not modelled.) -/
def pyFloat? (cs : List Char) : Option ℚ :=
  let sgncs : ℚ × List Char :=
    match cs with
    | '+' :: r => (1, r)
    | '-' :: r => (-1, r)
    | _ => (1, cs)
  let sgn := sgncs.1
  let ip := sgncs.2.takeWhile Char.isDigit
  match sgncs.2.dropWhile Char.isDigit with
  | [] => if ip.isEmpty then none else some (sgn * (digitsToNat ip : ℚ))
  | '.' :: r2 =>
    let fp := r2.takeWhile Char.isDigit
    if r2.dropWhile Char.isDigit = [] ∧ (ip ≠ [] ∨ fp ≠ []) then
      some (sgn * ((digitsToNat ip : ℚ) + (digitsToNat fp : ℚ) / (10 : ℚ) ^ fp.length))
    else none
  | _ => none

/-- Floor of a rational (den is always positive, so Euclidean division of
num by den is floor division). -/
def qfloor (q : ℚ) : ℤ := Int.ediv q.num q.den

/-- Round half to even, Python's rounding of a rational to an integer. -/
def rhe (q : ℚ) : ℤ :=
  let f := qfloor q
  let r := q - (f : ℚ)
  if r < 1 / 2 then f
  else if 1 / 2 < r then f + 1
  else if f % 2 = 0 then f else f + 1

/-- Python round(q, 2). -/
def round2 (q : ℚ) : ℚ := ((rhe (q * 100) : ℤ) : ℚ) / 100

/-- Decidable form of "q is an exact multiple of 0.01". -/
def isCentB (q : ℚ) : Bool := (q * 100).den == 1

/-! ### Specialized matchers for the regexes used by the parsers

Each Python regex used by the source is hand-compiled to a scanner with the
same (leftmost, greedy-with-backtracking) semantics; the backtracking of
\d{1,2} followed by a separator collapses to: maximal digit run of length 1
or 2, then the separator. -/

/-- Match \d{1,2} followed by a slash, at the head; returns (digits, rest
after the slash). -/
def matchDMSlash (cs : List Char) : Option (List Char × List Char) :=
  let ds := cs.takeWhile Char.isDigit
  if ds.length = 1 ∨ ds.length = 2 then
    match cs.dropWhile Char.isDigit with
    | '/' :: r => some (ds, r)
    | _ => none
  else none

/-- Anchored match of ^(\d{1,2})/(\d{1,2})/(\d{2,4}) (the date pattern of
parse_transactions_from_text); returns the three digit groups and the text
after match.end(). -/
def matchDateStart (cs : List Char) :
    Option (List Char × List Char × List Char × List Char) :=
  match matchDMSlash cs with
  | none => none
  | some (d, r1) =>
    match matchDMSlash r1 with
    | none => none
    | some (m, r2) =>
      let ys := r2.takeWhile Char.isDigit
      if 2 ≤ ys.length then
        some (d, m, ys.take 4, ys.drop 4 ++ r2.dropWhile Char.isDigit)
      else none

def subDatesAux : Nat → List Char → List Char
  | 0, cs => cs
  | _ + 1, [] => []
  | fuel + 1, c :: cs =>
    match matchDateStart (c :: cs) with
    | some (_, _, _, rest) => ' ' :: subDatesAux fuel rest
    | none => c :: subDatesAux fuel cs

/-- Python re.sub(r"\d{1,2}/\d{1,2}/\d{2,4}", " ", s): every leftmost
non-overlapping date-shaped match becomes one space. -/
def subDates (cs : List Char) : List Char := subDatesAux cs.length cs

def isAmtClass (c : Char) : Bool := c.isDigit || c == ','

def findAmountsAux : Nat → List Char → List (List Char)
  | 0, _ => []
  | _ + 1, [] => []
  | fuel + 1, c :: cs =>
    let run := (c :: cs).takeWhile isAmtClass
    if run.isEmpty then findAmountsAux fuel cs
    else
      match (c :: cs).dropWhile isAmtClass with
      | '.' :: r2 =>
        let fr := (r2.takeWhile Char.isDigit).take 2
        if fr.isEmpty then findAmountsAux fuel cs
        else (run ++ '.' :: fr) :: findAmountsAux fuel (r2.drop fr.length)
      | _ => findAmountsAux fuel cs

/-- Python re.findall(r"([\d,]+\.\d{1,2})", s): the matched amount strings in
order, leftmost and non-overlapping. -/
def findAmounts (cs : List Char) : List (List Char) :=
  findAmountsAux cs.length cs

/-! Date regexes of fast_parser._find_nearest_date_token. -/

def isDateSep (c : Char) : Bool := c == '/' || c == '-' || c == '.'

/-- Match \d{1,2} followed by one of [/\-.], at the head. -/
def matchDaySep (cs : List Char) : Option (List Char × List Char) :=
  let ds := cs.takeWhile Char.isDigit
  if ds.length = 1 ∨ ds.length = 2 then
    match cs.dropWhile Char.isDigit with
    | s :: r => if isDateSep s then some (ds, r) else none
    | [] => none
  else none

/-- Trailing group (\d{2,4}): greedy, at least two digits. -/
def matchYear (cs : List Char) : Option (List Char) :=
  let ys := cs.takeWhile Char.isDigit
  if 2 ≤ ys.length then some (ys.take 4) else none

/-- Anchored (\d{1,2})[/\-.](?:\d{1,2}|[A-Za-z]{3})[/\-.](\d{2,4}); the
middle alternative is non-capturing, so the two groups are (day, year).
A digit-leading middle can never fall back to the three-letter branch. -/
def matchFlexAt (cs : List Char) : Option (List Char × List Char) :=
  match matchDaySep cs with
  | none => none
  | some (d, r1) =>
    match matchDaySep r1 with
    | some (_, r2) =>
      match matchYear r2 with
      | some ys => some (d, ys)
      | none => none
    | none =>
      if 3 ≤ (r1.takeWhile Char.isAlpha).length then
        match r1.drop 3 with
        | s :: r2 =>
          if isDateSep s then
            match matchYear r2 with
            | some ys => some (d, ys)
            | none => none
          else none
        | [] => none
      else none

/-- Unanchored (leftmost) search with the flexible middle. -/
def searchFlexDate : List Char → Option (List Char × List Char)
  | [] => none
  | c :: cs =>
    match matchFlexAt (c :: cs) with
    | some r => some r
    | none => searchFlexDate cs

/-- Anchored (\d{1,2})[/\-.](\d{1,2})[/\-.](\d{2,4}) (numeric re-search). -/
def matchNumDateAt (cs : List Char) :
    Option (List Char × List Char × List Char) :=
  match matchDaySep cs with
  | none => none
  | some (d, r1) =>
    match matchDaySep r1 with
    | none => none
    | some (m, r2) =>
      match matchYear r2 with
      | some ys => some (d, m, ys)
      | none => none

def searchNumDate : List Char → Option (List Char × List Char × List Char)
  | [] => none
  | c :: cs =>
    match matchNumDateAt (c :: cs) with
    | some r => some r
    | none => searchNumDate cs

/-! Footer-count regex Total\s+Dr\s+Count\s*SEP?\s*(\d+) (IGNORECASE),
with SEP the optional separator class ([:.] in services/parsers.py,
[:\-.] in slow_parser.py). -/

/-- Case-insensitive literal word at the head. -/
def matchWordCI (w : List Char) (cs : List Char) : Option (List Char) :=
  match w, cs with
  | [], rest => some rest
  | _ :: _, [] => none
  | a :: as, c :: rest =>
    if a == c.toLower then matchWordCI as rest else none

/-- Anchored Total\s+WORD\s+Count\s*SEP?\s*(\d+); returns the digit group
and the remainder after the match (the digit run is greedy, so the match
ends right after it). -/
def matchFooterAt (word : List Char) (seps : List Char) (cs : List Char) :
    Option (List Char × List Char) :=
  match matchWordCI "total".data cs with
  | none => none
  | some r1 =>
    let ws1 := r1.takeWhile isPySpace
    if ws1.isEmpty then none
    else
      match matchWordCI word (r1.dropWhile isPySpace) with
      | none => none
      | some r2 =>
        let ws2 := r2.takeWhile isPySpace
        if ws2.isEmpty then none
        else
          match matchWordCI "count".data (r2.dropWhile isPySpace) with
          | none => none
          | some r3 =>
            let r4 := r3.dropWhile isPySpace
            let r5 :=
              match r4 with
              | c :: rest => if seps.contains c then rest else r4
              | [] => r4
            let r6 := r5.dropWhile isPySpace
            let ds := r6.takeWhile Char.isDigit
            if ds.isEmpty then none
            else some (ds, r6.dropWhile Char.isDigit)

/-- Python re.findall semantics: scan left to right; a successful match resumes
after its end, a failure advances one character. -/
def findFooterAux (word : List Char) (seps : List Char) :
    Nat → List Char → List (List Char)
  | 0, _ => []
  | _ + 1, [] => []
  | fuel + 1, c :: cs =>
    match matchFooterAt word seps (c :: cs) with
    | some (ds, rest) => ds :: findFooterAux word seps fuel rest
    | none => findFooterAux word seps fuel cs

def findFooterCounts (word : List Char) (seps : List Char) (cs : List Char) :
    List Nat :=
  (findFooterAux word seps cs.length cs).map digitsToNat

/-! ### Data model

One record type covers the transaction dicts of all three strategies;
keys that a given strategy does not set are Option fields left none. -/

structure Tx where
  date : String
  merchantRaw : String
  amount : ℚ
  transactionType : String
  closingBalance : ℚ
  confidenceScore : Nat
  paymentMethod : Option String := none
  rawAmounts : Option (List ℚ) := none
  description : Option String := none
deriving DecidableEq

/-- The validation dict as read by the orchestrator via .get with defaults;
a key that may be absent is an Option field. -/
structure PyValidation where
  expectedDrCount : Option Nat := none
  expectedCrCount : Option Nat := none
  foundFooter : Option Bool := none
  method : Option String := none
  countField : Option Nat := none
deriving DecidableEq

/-! ### services/parsers.py: parse_transactions_from_text -/

def headerKeywords : List String :=
  ["hdfc bank", "statement of account", "page no", "account branch",
   "address", "city", "state", "phone", "email", "cust id",
   "account no", "account status", "branch code", "nomination",
   "joint holders", "od limit", "currency", "micr", "ifsc",
   "we understand your world", "from :", "to :", "registered",
   "narration", "chq./ref.no", "value dt", "withdrawal amt",
   "deposit amt", "closing balance", "opening balance", "product code"]

def pad2 (n : Nat) : List Char :=
  if n < 10 then '0' :: Nat.toDigits 10 n else Nat.toDigits 10 n

/-- The f-string year-month2-day2 (year unpadded, as f-strings print ints). -/
def isoDate (y m d : Nat) : String :=
  ⟨Nat.toDigits 10 y ++ '-' :: (pad2 m ++ '-' :: pad2 d)⟩

/-- Two-digit year widening of the regex line parser:
years below 100 become 2000+y when y < 50, else 1900+y. -/
def normYearText (y : Nat) : Nat :=
  if y < 100 then (if y < 50 then 2000 + y else 1900 + y) else y

/-- Python re.sub(r"[^\w\s\-\./]", " ", s). -/
def punctToSpace (c : Char) : Char :=
  if isPyWordChar c || isPySpace c || c == '-' || c == '.' || c == '/' then c
  else ' '

/-- Build the fresh transaction dict for a line whose head matched the date
pattern (the try around the f-string cannot fail: all groups are digits). -/
def mkDateTx (d m y : List Char) (afterDate : List Char) : Tx :=
  let year := normYearText (digitsToNat y)
  let iso := isoDate year (digitsToNat m) (digitsToNat d)
  let rest := subDates (pyStrip afterDate)
  let amounts := (findAmounts rest).filter
    (fun a => decide ((1 : ℚ) / 100 ≤ parseDecQ a))
  let closing := if 2 ≤ amounts.length then parseDecQ (amounts.getLast?.getD []) else 0
  let amountVal := if 1 ≤ amounts.length then parseDecQ (amounts.head?.getD []) else 0
  let narr0 := amounts.foldl (fun s a => removeAllL s a) rest
  let narr1 := (collapseWs (pyStrip (narr0.map punctToSpace))).take 100
  let narr := if narr1.length < 3 then "Transaction".data else narr1
  { date := iso
    merchantRaw := ⟨narr⟩
    amount := amountVal
    rawAmounts := some (amounts.map parseDecQ)
    transactionType := "unknown"
    paymentMethod := some (if containsL (lowerChars narr) "upi".data then "UPI" else "Other")
    closingBalance := closing
    confidenceScore := 85
    description := none }

def contSkipKeywords : List String := ["page", "hdfc", "statement", "closing balance"]

/-- One iteration of the line loop; state is (finished txns, open txn). -/
def lineStep (st : List Tx × Option Tx) (rawLine : String) : List Tx × Option Tx :=
  let line := pyStrip rawLine.data
  if line.length < 5 then st
  else if headerKeywords.any (fun kw => containsL (lowerChars line) kw.data) then st
  else
    match matchDateStart line with
    | some (d, m, y, rest) =>
      let acc := match st.2 with
        | some t => st.1 ++ [t]
        | none => st.1
      (acc, some (mkDateTx d m y rest))
    | none =>
      match st.2 with
      | none => st
      | some t =>
        if contSkipKeywords.any (fun kw => containsL (lowerChars line) kw.data) then st
        else
          let clean := collapseWs (pyStrip (line.map punctToSpace))
          if 2 < clean.length then
            (st.1, some { t with
              merchantRaw := ⟨(t.merchantRaw.data ++ ' ' :: clean.take 50).take 150⟩ })
          else st

def crKeywordHit (n : List Char) : Bool :=
  containsL n " cr ".data || endsWithL n " cr".data || containsL n "credit".data

def drKeywordHit (n : List Char) : Bool :=
  containsL n " dr ".data || endsWithL n " dr".data || containsL n "debit".data

def anyCreditKw (n : List Char) : Bool :=
  ["deposit", "imps", "neft cr", "upi cr"].any (fun k => containsL n k.data)

/-- Keyword fallback of the i ≥ 1 loop (lines 317-327 of parsers.py). -/
def keywordTypeLoop (narr : String) : String :=
  let n := lowerChars narr.data
  if crKeywordHit n then "credit"
  else if drKeywordHit n then "debit"
  else if anyCreditKw n then "credit"
  else "debit"

def anyCreditKw0 (n : List Char) : Bool :=
  ["deposit", "imps", "neft cr", "upi cr", "credit"].any (fun k => containsL n k.data)

/-- Keyword resolution used for the first (or only) transaction. -/
def keywordTypeFirst (narr : String) : String :=
  if anyCreditKw0 (lowerChars narr.data) then "credit" else "debit"

/-- Balance-continuity scan over raw_amts[:-1]; first hit wins, debit
before credit per amount. -/
def arithScan (prevBal currBal : ℚ) : List ℚ → Option (ℚ × String)
  | [] => none
  | amt :: rest =>
    if |prevBal - amt - currBal| < 1 then some (amt, "debit")
    else if |prevBal + amt - currBal| < 1 then some (amt, "credit")
    else arithScan prevBal currBal rest

def resolveOne (prevBal : ℚ) (t : Tx) : Tx :=
  match arithScan prevBal t.closingBalance ((t.rawAmounts.getD []).dropLast) with
  | some (amt, ty) => { t with amount := amt, transactionType := ty }
  | none => { t with transactionType := keywordTypeLoop t.merchantRaw }

def resolveChain : Tx → List Tx → List Tx
  | _, [] => []
  | prev, t :: ts =>
    let t2 := resolveOne prev.closingBalance t
    t2 :: resolveChain t2 ts

def fixAmountZero (t : Tx) : Tx :=
  if t.amount = 0 ∧ 2 ≤ (t.rawAmounts.getD []).length then
    { t with amount := (t.rawAmounts.getD []).head?.getD 0 }
  else t

def fixFirst (t : Tx) : Tx :=
  let t1 :=
    if t.transactionType = "unknown" then
      { t with transactionType := keywordTypeFirst t.merchantRaw }
    else t
  fixAmountZero t1

def resolveSingle (t : Tx) : Tx :=
  fixAmountZero { t with transactionType := keywordTypeFirst t.merchantRaw }

/-- Post-sort debit/credit resolution (parsers.py lines 297-348). -/
def resolveTypes : List Tx → List Tx
  | [] => []
  | [t] => [resolveSingle t]
  | t0 :: t1 :: rest => fixFirst t0 :: resolveChain t0 (t1 :: rest)

/-- Footer-count extraction over the whole input text (lines 355-376). -/
def textValidation (text : String) : PyValidation :=
  let dr := findFooterCounts "dr".data [':', '.'] text.data
  let cr := findFooterCounts "cr".data [':', '.'] text.data
  let v0 : PyValidation :=
    { expectedDrCount := some 0, expectedCrCount := some 0,
      foundFooter := some false }
  let v1 := match dr.getLast? with
    | some n => { v0 with expectedDrCount := some n, foundFooter := some true }
    | none => v0
  match cr.getLast? with
  | some n => { v1 with expectedCrCount := some n, foundFooter := some true }
  | none => v1

def dateLeB (a b : Tx) : Bool := strLeB a.date b.date

/-- The list the line loop accumulates, with the still-open transaction
flushed at the end (parsers.py lines 194-292). -/
def textTxs0 (text : String) : List Tx :=
  let lines := (splitOnChar '\n' text.data).map String.mk
  let st := lines.foldl lineStep ([], none)
  match st.2 with
  | some t => st.1 ++ [t]
  | none => st.1

def parse_transactions_from_text (text : String) : List Tx × PyValidation :=
  let sorted := pySort dateLeB (textTxs0 text)
  let resolved := resolveTypes sorted
  let final := resolved.map (fun t => { t with rawAmounts := none })
  (final, textValidation text)

/-! ### fast_parser.py: balance-spine strategy

The token stream (pdfplumber extract_words plus the page index) is the
external input; everything from _filter_numeric_tokens on is embedded. -/

structure Token where
  text : String
  x0 : ℚ
  x1 : ℚ
  top : ℚ
  bottom : ℚ
  page : Nat
deriving DecidableEq

/-- A token that passed the numeric filter, with its parsed value (the
source stores it as the numeric_value key on the word dict). -/
structure NTok where
  tok : Token
  numeric_value : ℚ
deriving DecidableEq

/-- Python text[:-2] twice for trailing Cr then Dr. -/
def stripCrDr (cs : List Char) : List Char :=
  let cs1 := if endsWithL cs "Cr".data then cs.dropLast.dropLast else cs
  if endsWithL cs1 "Dr".data then cs1.dropLast.dropLast else cs1

def _filter_numeric_tokens (words : List Token) : List NTok :=
  words.filterMap (fun w =>
    let t := stripCrDr (pyStrip (w.text.data.filter (fun c => c ≠ ',')))
    match pyFloat? t with
    | none => none
    | some v =>
      if w.text.data.contains '.' && decide (v < 100000000) then
        some { tok := w, numeric_value := v }
      else none)

/-- Assign w to the first cluster whose center is within 20 of its x0, else
append a new cluster keyed by w.x0 (dicts preserve insertion order). -/
def addToClusters (clusters : List (ℚ × List NTok)) (w : NTok) :
    List (ℚ × List NTok) :=
  match clusters with
  | [] => [(w.tok.x0, [w])]
  | (cx, ts) :: rest =>
    if |w.tok.x0 - cx| < 20 then (cx, ts ++ [w]) :: rest
    else (cx, ts) :: addToClusters rest w

def buildClusters (ns : List NTok) : List (ℚ × List NTok) :=
  ns.foldl addToClusters []

/-- sort key (page, top). -/
def pageTopLe (a b : NTok) : Bool :=
  decide (a.tok.page < b.tok.page) ||
    (a.tok.page == b.tok.page && decide (a.tok.top ≤ b.tok.top))

/-- One token per visual row; the source's sentinel start (last_page = -1,
last_y = -100) matches no real token and is modelled as none. -/
def dedupeRows : Option (Nat × ℚ) → List NTok → List NTok
  | _, [] => []
  | last, t :: ts =>
    match last with
    | some (p, y) =>
      if t.tok.page = p ∧ |t.tok.top - y| < 5 then dedupeRows (some (p, y)) ts
      else t :: dedupeRows (some (t.tok.page, t.tok.top)) ts
    | none => t :: dedupeRows (some (t.tok.page, t.tok.top)) ts

def _find_best_balance_spine (ns : List NTok) : List NTok :=
  (buildClusters ns).foldl
    (fun best c =>
      let toks := pySort pageTopLe c.2
      if toks.length < 5 then best
      else
        let filtered := dedupeRows none toks
        if best.length < filtered.length then filtered else best)
    []

def monthNames : List (List Char) :=
  ["jan".data, "feb".data, "mar".data, "apr".data, "may".data, "jun".data,
   "jul".data, "aug".data, "sep".data, "oct".data, "nov".data, "dec".data]

/-- Two-digit years in the fast parser become 2000+y (no 50 split here). -/
def normYearFast (y : Nat) : Nat := if y < 100 then 2000 + y else y

/-- The date-extraction try-block of _find_nearest_date_token applied to one
word's text. -/
def tokenDateIso (cs : List Char) : Option String :=
  match searchFlexDate cs with
  | none => none
  | some (_, p2) =>
    if monthNames.contains (lowerChars p2) then
      -- Unreachable: p2 is the year capture group (\d{2,4}), all digits,
      -- never a month name (the month alternative is non-capturing).  The
      -- source's alphabetic-month path lives in this branch.
      none
    else
      match searchNumDate cs with
      | none => none   -- full_match is None, .groups() raises, except: pass
      | some (d, m, y) =>
        some (isoDate (normYearFast (digitsToNat y)) (digitsToNat m) (digitsToNat d))

def sameRow (anchor w : Token) : Bool :=
  decide (|(w.top + w.bottom) / 2 - (anchor.top + anchor.bottom) / 2| < 10)

def _find_nearest_date_token (anchor : Token) (all_words : List Token) :
    Option String :=
  let pageWords := all_words.filter (fun w => w.page == anchor.page)
  let candidates := pageWords.filterMap (fun w =>
    if sameRow anchor w && decide (w.x1 < anchor.x0) then
      match tokenDateIso w.text.data with
      | some iso => some (w.x0, iso)
      | none => none
    else none)
  ((pySort (fun a b => decide (a.1 ≤ b.1)) candidates).head?).map (fun p => p.2)

def _find_row_text (anchor : Token) (all_words : List Token) : String :=
  let pageWords := all_words.filter (fun w => w.page == anchor.page)
  let row := pageWords.filterMap (fun w =>
    if sameRow anchor w && decide (w.x1 < anchor.x0) then some w.text.data
    else none)
  ⟨pyStrip (joinSpace row)⟩

/-- The loop body of _infer_from_deltas for one consecutive spine pair. -/
def emitPair (prev curr : NTok) (all_words : List Token) : List Tx :=
  let delta := round2 (curr.numeric_value - prev.numeric_value)
  if |delta| < 1 / 100 then []
  else
    let ty := if delta < 0 then "debit" else "credit"
    let amount := if delta < 0 then |delta| else delta
    match _find_nearest_date_token curr.tok all_words with
    | some d =>
      [{ date := d, amount := amount, transactionType := ty,
         merchantRaw := _find_row_text curr.tok all_words,
         closingBalance := curr.numeric_value, confidenceScore := 100 }]
    | none => []

def inferAux (all_words : List Token) : NTok → List NTok → List Tx
  | _, [] => []
  | prev, curr :: rest =>
    emitPair prev curr all_words ++ inferAux all_words curr rest

def _infer_from_deltas (spine : List NTok) (all_words : List Token) : List Tx :=
  match pySort pageTopLe spine with
  | [] => []
  | p :: rest => inferAux all_words p rest

/-- The failure dicts carry only an error string, no key the orchestrator
reads: all fields none. -/
def _validate_mathematically (txs : List Tx) : Bool × PyValidation :=
  if txs.isEmpty then (false, {})
  else (true, { method := some "fast_balance_spine", countField := some txs.length })

def parse_pdf_fast (all_words : List Token) : Option (List Tx) × PyValidation :=
  let numeric := _filter_numeric_tokens all_words
  let spine := _find_best_balance_spine numeric
  if spine.length < 3 then (none, {})
  else
    let txs := _infer_from_deltas spine all_words
    let v := _validate_mathematically txs
    if v.1 then (some txs, v.2) else (none, v.2)

/-- The sorted selected spine a given token stream produces. -/
def selectedSpine (all_words : List Token) : List NTok :=
  pySort pageTopLe (_find_best_balance_spine (_filter_numeric_tokens all_words))

/-! ### slow_parser.py: the pieces the claims are about -/

/-- Interval build of _detect_header_layout (lines 137-149) on the list of
found headers already sorted by x0: every left edge is the header x0 minus
20, the right edge is the NEXT header's unpadded x0, and the last right
edge is the 1000 sentinel.  Entries are (key, x0, x1) with the pair
(x0, x1) the derived interval. -/
def buildColumnMapSorted : List (String × ℚ × ℚ) → List (String × ℚ × ℚ)
  | [] => []
  | [(k, hx, _)] => [(k, hx - 20, 1000)]
  | (k, hx, _) :: (k2, nx0, nx1) :: rest =>
    (k, hx - 20, nx0) :: buildColumnMapSorted ((k2, nx0, nx1) :: rest)

def headerXLe (a b : String × ℚ × ℚ) : Bool := decide (a.2.1 ≤ b.2.1)

/-- found_headers (key, header x0, header x1) to the column map, sorting by
header x0 as the source sorts the dict keys. -/
def detect_header_intervals (found : List (String × ℚ × ℚ)) :
    List (String × ℚ × ℚ) :=
  buildColumnMapSorted (pySort headerXLe found)

/-- Debit/credit resolution of _refine_and_validate (lines 304-317) from
the parsed withdrawal and deposit values. -/
def resolveWD (w_val d_val : ℚ) : String × ℚ :=
  if 0 < w_val ∧ d_val = 0 then ("debit", w_val)
  else if 0 < d_val ∧ w_val = 0 then ("credit", d_val)
  else if 0 < w_val ∧ 0 < d_val then
    (if d_val < w_val then "debit" else "credit", max w_val d_val)
  else ("debit", 0)

/-- The validation dict a BankStatementParser can hold (never a method
key). -/
structure SlowValid where
  expectedDrCount : Nat := 0
  expectedCrCount : Nat := 0
  foundFooter : Bool := false
  -- the dict key is "matches" (a reserved word in Lean)
  matchesKey : Option Bool := none
  actualDrCount : Option Nat := none
  actualCrCount : Option Nat := none
deriving DecidableEq

def countType (ty : String) (txs : List Tx) : Nat :=
  txs.countP (fun t => t.transactionType == ty)

/-- _extract_footer_validation (lines 350-385): full_text is the extracted
text of the LAST page only (pdf.pages[-1]); pageTexts is the per-page text
the external extractor returns. -/
def _extract_footer_validation (pageTexts : List String) (txs : List Tx) :
    SlowValid :=
  let full_text := (pageTexts.getLast?).getD ""
  let dr := findFooterCounts "dr".data [':', '-', '.'] full_text.data
  let cr := findFooterCounts "cr".data [':', '-', '.'] full_text.data
  let v0 : SlowValid := {}
  let v1 := match dr.getLast? with
    | some n => { v0 with expectedDrCount := n, foundFooter := true }
    | none => v0
  let v2 := match cr.getLast? with
    | some n => { v1 with expectedCrCount := n, foundFooter := true }
    | none => v1
  if v2.foundFooter then
    { v2 with
      matchesKey := some (v2.expectedDrCount == countType "debit" txs &&
                       v2.expectedCrCount == countType "credit" txs),
      actualDrCount := some (countType "debit" txs),
      actualCrCount := some (countType "credit" txs) }
  else v2

def SlowValid.toPy (v : SlowValid) : PyValidation :=
  { expectedDrCount := some v.expectedDrCount,
    expectedCrCount := some v.expectedCrCount,
    foundFooter := some v.foundFooter }

/-! ### routers/processing.py: the orchestrator for a .pdf upload -/

structure PdfInputs where
  fastAvail : Bool
  fastRet : Option (List Tx) × PyValidation
  slowAvail : Bool
  slowRet : Option (List Tx × SlowValid)
  extractedText : String
  docling : Option (Option String)

structure ProcState where
  transactions : Option (List Tx)
  validation : PyValidation
  processingMethod : String

structure FinalValidation where
  expectedDrCount : Nat
  expectedCrCount : Nat
  actualDrCount : Nat
  actualCrCount : Nat
  foundFooter : Bool
  -- the response key is "matches" (a reserved word in Lean)
  matchesKey : Option Bool
  method : String
deriving DecidableEq

/-- The response validation block (lines 150-173): expected counts and
foundFooter via .get with defaults, actual counts recomputed, matches only
when a footer was found, method via .get with the processing method as
default. -/
def finalValidation (v : PyValidation) (processingMethod : String)
    (txs : List Tx) : FinalValidation :=
  let actual_dr := countType "debit" txs
  let actual_cr := countType "credit" txs
  let expected_dr := v.expectedDrCount.getD 0
  let expected_cr := v.expectedCrCount.getD 0
  let found := v.foundFooter.getD false
  { expectedDrCount := expected_dr, expectedCrCount := expected_cr,
    actualDrCount := actual_dr, actualCrCount := actual_cr,
    foundFooter := found,
    matchesKey :=
      if found then some (expected_dr == actual_dr && expected_cr == actual_cr)
      else none,
    method := v.method.getD processingMethod }

structure ProcResponse where
  processingMethod : String
  transactions : List Tx
  transactionCount : Nat
  validation : FinalValidation
deriving DecidableEq

def initValidation : PyValidation :=
  { expectedDrCount := some 0, expectedCrCount := some 0,
    foundFooter := some false }

/-- Strategy 3, lines 109-124: text extraction, else Docling OCR (outer
none: unavailable; some none: converter raised, state unchanged), else
method failed. -/
def strategyThree (inp : PdfInputs) (st : ProcState) : ProcState :=
  if inp.extractedText ≠ "" ∧ 100 < (pyStrip inp.extractedText.data).length then
    let r := parse_transactions_from_text inp.extractedText
    { transactions := some r.1, validation := r.2,
      processingMethod := "pypdf_fallback" }
  else
    match inp.docling with
    | some (some md) =>
      let r := parse_transactions_from_text md
      { transactions := some r.1, validation := r.2,
        processingMethod := "docling" }
    | some none => st
    | none => { st with processingMethod := "failed" }

/-- Strategy 2, lines 93-107: the visual parser; an empty result or a raise
falls through to strategy 3. -/
def strategyTwo (inp : PdfInputs) (st : ProcState) : ProcState :=
  if inp.slowAvail then
    match inp.slowRet with
    | some (l, sv) =>
      let st2 : ProcState :=
        { transactions := some l, validation := sv.toPy,
          processingMethod := "pdfplumber_visual" }
      if l.isEmpty then strategyThree inp st2 else st2
    | none => strategyThree inp st
  else strategyThree inp st

/-- process_document for a .pdf upload (lines 52-175).  none models the
uncaught TypeError (HTTP 500) when the response is built while
transactions is still Python None. -/
def process_document_pdf (inp : PdfInputs) : Option ProcResponse :=
  let st0 : ProcState :=
    { transactions := some [], validation := initValidation,
      processingMethod := "fallback" }
  let st :=
    if inp.fastAvail then
      let st1 : ProcState :=
        { st0 with transactions := inp.fastRet.1, validation := inp.fastRet.2 }
      match inp.fastRet.1 with
      | some l =>
        if l.isEmpty then strategyTwo inp st1
        else { st1 with processingMethod := "fast_spine" }
      | none => strategyTwo inp st1
    else strategyTwo inp st0
  match st.transactions with
  | none => none
  | some txs =>
    some { processingMethod := st.processingMethod,
           transactions := txs,
           transactionCount := txs.length,
           validation := finalValidation st.validation st.processingMethod txs }

/-! ### Concrete inputs used by claim instances -/

/-- The signed amount of a transaction: negative for a debit, positive for
a credit. -/
def signedAmount (t : Tx) : ℚ :=
  if t.transactionType = "debit" then -t.amount else t.amount

/-- A balance-column token at x0 = 500 on page 0. -/
def balTok (txt : String) (top : ℚ) : Token :=
  { text := txt, x0 := 500, x1 := 540, top := top, bottom := top + 10, page := 0 }

/-- A left-column date token at x0 = 50 on page 0. -/
def dateTok (txt : String) (top : ℚ) : Token :=
  { text := txt, x0 := 50, x1 := 90, top := top, bottom := top + 10, page := 0 }

/-- Token stream whose only 5-token cluster contains the non-two-decimal
balance 302.004; the only dated row is the 302.004 one. -/
def c1Words : List Token :=
  [balTok "100.00" 10, balTok "200.00" 30, balTok "302.004" 50,
   balTok "400.00" 70, balTok "500.00" 90, dateTok "01/01/23" 50]

/-- The single transaction the fast path extracts from c1Words. -/
def c1Tx : Tx :=
  { date := "2023-01-01", amount := 102, transactionType := "credit",
    merchantRaw := "01/01/23", closingBalance := 302.004,
    confidenceScore := 100 }

/-- Token stream with exact-cent balances; rows 2 and 3 carry dates. -/
def c1wWords : List Token :=
  [balTok "100.00" 10, balTok "250.50" 30, balTok "180.25" 50,
   balTok "400.00" 70, balTok "500.00" 90,
   dateTok "02/03/21" 30, dateTok "03/03/21" 50]

/-- First transaction the fast path extracts from c1wWords. -/
def c1wTx : Tx :=
  { date := "2021-03-02", amount := 150.5, transactionType := "credit",
    merchantRaw := "02/03/21", closingBalance := 250.5,
    confidenceScore := 100 }

/-- Second transaction the fast path extracts from c1wWords. -/
def c1wTx2 : Tx :=
  { date := "2021-03-03", amount := 70.25, transactionType := "debit",
    merchantRaw := "03/03/21", closingBalance := 180.25,
    confidenceScore := 100 }

/-- Five cent-valued balances whose dates (on the two dated rows) descend:
row 2 is 05/05/23 and row 3 is 04/05/23. -/
def c4Words : List Token :=
  [balTok "100.00" 10, balTok "200.00" 30, balTok "300.00" 50,
   balTok "400.00" 70, balTok "500.00" 90,
   dateTok "05/05/23" 30, dateTok "04/05/23" 50]

/-- The spine [100.00, 100.00, 150.00] of the zero-delta-suppression
property. -/
def c6Spine : List NTok :=
  [{ tok := balTok "100.00" 10, numeric_value := 100 },
   { tok := balTok "100.00" 30, numeric_value := 100 },
   { tok := balTok "150.00" 50, numeric_value := 150 }]

/-- A date token on the row of the third spine point. -/
def c6Words : List Token := [dateTok "01/01/23" 50]

def c6Tx : Tx :=
  { date := "2023-01-01", amount := 50, transactionType := "credit",
    merchantRaw := "01/01/23", closingBalance := 150, confidenceScore := 100 }

/-- Per-page texts whose footer totals sit on the FIRST page only. -/
def c3Pages : List String :=
  ["HEADER Total Dr Count : 7 Total Cr Count : 2", "tail page with no totals"]

/-- Document text declaring Dr = 10 (after an earlier per-page subtotal of
3) and Cr = 4. -/
def c3Text : String :=
  "stuff Total Dr Count : 3 more\nTotal Dr Count : 10 and Total Cr Count : 4"

/-- A minimal transaction of the given type. -/
def simpleTx (ty : String) : Tx :=
  { date := "", merchantRaw := "", amount := 0, transactionType := ty,
    closingBalance := 0, confidenceScore := 0 }

/-- An extraction result with 10 debits and 3 credits. -/
def c3Txs : List Tx :=
  List.replicate 10 (simpleTx "debit") ++ List.replicate 3 (simpleTx "credit")

/-- Orchestrator inputs: fast returns zero transactions, layout returns one. -/
def c2Inp : PdfInputs :=
  { fastAvail := true, fastRet := (none, {}), slowAvail := true,
    slowRet := some ([simpleTx "debit"], {}), extractedText := "",
    docling := none }

/-- Two-line statement whose second transaction has no arithmetic match and
a narration containing NEFT CR next to a DR keyword. -/
def c9Text : String :=
  "01/01/23 OPENING SHOP 100.00 9000.00\n02/01/23 NEFT CRX A DR B 500.00 700.00"

/-- The second transaction parsed from c9Text. -/
def c9Tx : Tx :=
  { date := "2023-01-02", merchantRaw := "NEFT CRX A DR B", amount := 500,
    transactionType := "debit", closingBalance := 700, confidenceScore := 85,
    paymentMethod := some "Other", rawAmounts := none, description := none }

/-- Single-line statement for instance checks. -/
def c10Text : String := "05/06/24 COFFEE SHOP 120.00 880.00"

/-- The transaction parsed from c10Text. -/
def c10Tx : Tx :=
  { date := "2024-06-05", merchantRaw := "COFFEE SHOP",
    amount := 120, transactionType := "debit", closingBalance := 880,
    confidenceScore := 85, paymentMethod := some "Other",
    rawAmounts := none, description := none }

/-! ### Helper lemmas -/

theorem mem_insertStable (le : α → α → Bool) (x : α) (l : List α) :
    ∀ a, a ∈ insertStable le x l ↔ a = x ∨ a ∈ l := by
  induction l with
  | nil => simp [insertStable]
  | cons y ys ih =>
    intro a
    simp only [insertStable]
    split
    · simp only [List.mem_cons, ih a]
      tauto
    · simp only [List.mem_cons]

theorem pairwise_insertStable (le : α → α → Bool)
    (htot : ∀ a b, le a b = true ∨ le b a = true)
    (htrans : ∀ a b c, le a b = true → le b c = true → le a c = true)
    (x : α) (l : List α)
    (hl : l.Pairwise (fun a b => le a b = true)) :
    (insertStable le x l).Pairwise (fun a b => le a b = true) := by
  induction l with
  | nil => simp [insertStable]
  | cons y ys ih =>
    rcases List.pairwise_cons.mp hl with ⟨hy, hys⟩
    simp only [insertStable]
    split
    · next h =>
      refine List.pairwise_cons.mpr ⟨?_, ih hys⟩
      intro a ha
      rcases (mem_insertStable le x ys a).mp ha with rfl | hmem
      · exact h
      · exact hy a hmem
    · next h =>
      have hxy : le x y = true := by
        rcases htot x y with h1 | h1
        · exact h1
        · exact absurd h1 h
      refine List.pairwise_cons.mpr ⟨?_, hl⟩
      intro a ha
      rcases List.mem_cons.mp ha with rfl | hmem
      · exact hxy
      · exact htrans x y a hxy (hy a hmem)

theorem pairwise_pySort (le : α → α → Bool)
    (htot : ∀ a b, le a b = true ∨ le b a = true)
    (htrans : ∀ a b c, le a b = true → le b c = true → le a c = true)
    (l : List α) :
    (pySort le l).Pairwise (fun a b => le a b = true) := by
  suffices h : ∀ acc, acc.Pairwise (fun a b => le a b = true) →
      (l.foldl (fun acc x => insertStable le x acc) acc).Pairwise
        (fun a b => le a b = true) by
    exact h [] (by simp)
  induction l with
  | nil => intro acc hacc; simpa using hacc
  | cons x xs ih =>
    intro acc hacc
    exact ih (insertStable le x acc) (pairwise_insertStable le htot htrans x acc hacc)

theorem mem_pySortAux (le : α → α → Bool) (l : List α) :
    ∀ acc a, a ∈ l.foldl (fun acc x => insertStable le x acc) acc ↔
      a ∈ acc ∨ a ∈ l := by
  induction l with
  | nil => intro acc a; simp
  | cons x xs ih =>
    intro acc a
    rw [List.foldl_cons, ih (insertStable le x acc) a]
    rw [mem_insertStable le x acc a]
    simp only [List.mem_cons]
    tauto

theorem mem_pySort (le : α → α → Bool) (l : List α) :
    ∀ a, a ∈ pySort le l ↔ a ∈ l := by
  intro a
  have := mem_pySortAux le l [] a
  simpa [pySort] using this

theorem lexLeC_total : ∀ a b, lexLeC a b = true ∨ lexLeC b a = true := by
  intro a
  induction a with
  | nil => intro b; left; rfl
  | cons x xs ih =>
    intro b
    cases b with
    | nil => right; rfl
    | cons y ys =>
      simp only [lexLeC, Bool.or_eq_true, Bool.and_eq_true, decide_eq_true_eq, beq_iff_eq]
      rcases Nat.lt_trichotomy x.toNat y.toNat with h | h | h
      · left; left; exact h
      · rcases ih ys with h2 | h2
        · left; right; exact ⟨h, h2⟩
        · right; right; exact ⟨h.symm, h2⟩
      · right; left; exact h

theorem lexLeC_trans :
    ∀ a b c, lexLeC a b = true → lexLeC b c = true → lexLeC a c = true := by
  intro a
  induction a with
  | nil => intro b c _ _; rfl
  | cons x xs ih =>
    intro b c hab hbc
    cases b with
    | nil => exact absurd hab (by simp [lexLeC])
    | cons y ys =>
      cases c with
      | nil => exact absurd hbc (by simp [lexLeC])
      | cons z zs =>
        simp only [lexLeC, Bool.or_eq_true, Bool.and_eq_true, decide_eq_true_eq,
          beq_iff_eq] at hab hbc ⊢
        rcases hab with h1 | ⟨h1, h1r⟩
        · rcases hbc with h2 | ⟨h2, _⟩
          · left; exact Nat.lt_trans h1 h2
          · left; omega
        · rcases hbc with h2 | ⟨h2, h2r⟩
          · left; omega
          · right; exact ⟨by omega, ih ys zs h1r h2r⟩

theorem qfloor_intCast (n : ℤ) : qfloor (n : ℚ) = n := by
  simp only [qfloor, Rat.num_intCast, Rat.den_intCast, Nat.cast_one]
  exact Int.ediv_one n

theorem rhe_intCast (n : ℤ) : rhe (n : ℚ) = n := by
  have hf : qfloor (n : ℚ) = n := qfloor_intCast n
  simp only [rhe, hf]
  have : (n : ℚ) - (n : ℚ) = 0 := by ring
  rw [this]
  norm_num

/-- round2 is the identity on exact two-decimal amounts. -/
theorem round2_cent (n : ℤ) : round2 ((n : ℚ) / 100) = (n : ℚ) / 100 := by
  have h : ((n : ℚ) / 100) * 100 = (n : ℚ) := by
    field_simp
  rw [round2, h, rhe_intCast]

theorem isCentB_eq (q : ℚ) (h : isCentB q = true) : ∃ n : ℤ, q = (n : ℚ) / 100 := by
  refine ⟨(q * 100).num, ?_⟩
  have hden : (q * 100).den = 1 := by
    simpa [isCentB] using h
  have hq : ((q * 100).num : ℚ) = q * 100 := (Rat.den_eq_one_iff _).mp hden
  rw [hq]
  field_simp

/-! ### Claim C6: zero-delta suppression -/

/-- C6: in the delta inference engine, a consecutive spine pair whose
rounded delta has magnitude below 0.01 produces no transaction (inference
just continues from the later point), and the spine [100.00, 100.00,
150.00] with a date token on the relevant row yields exactly one
transaction, a credit of 50.00. -/
theorem c6_zero_delta_suppression :
    (∀ (all_words : List Token) (prev curr : NTok) (rest : List NTok),
      |round2 (curr.numeric_value - prev.numeric_value)| < 1 / 100 →
      inferAux all_words prev (curr :: rest) = inferAux all_words curr rest) ∧
    _infer_from_deltas c6Spine c6Words = [c6Tx] := by
  constructor
  · intro all_words prev curr rest h
    simp only [inferAux, emitPair]
    rw [if_pos h]
    simp
  · with_unfolding_all rfl

/-- Witness: the skip equation at the concrete zero-delta pair of c6Spine. -/
theorem c6_zero_delta_suppression_witness :
    inferAux c6Words { tok := balTok "100.00" 10, numeric_value := 100 }
        [{ tok := balTok "100.00" 30, numeric_value := 100 }] =
      inferAux c6Words { tok := balTok "100.00" 30, numeric_value := 100 } [] :=
  c6_zero_delta_suppression.1 c6Words
    { tok := balTok "100.00" 10, numeric_value := 100 }
    { tok := balTok "100.00" 30, numeric_value := 100 } []
    (of_decide_eq_true (by with_unfolding_all rfl))

/-! ### Claim C7: dual-amount row resolution -/

/-- C7: a row with withdrawal 500.00 and deposit 0.0 resolves to a debit of
500.00; a row with both sides nonzero resolves by taking the larger value
as the amount and its side as the type (300/900 gives credit 900); the
resolved type is always debit or credit, never an ambiguous sentinel. -/
theorem c7_dual_amount_resolution :
    resolveWD 500 0 = ("debit", 500) ∧
    resolveWD 300 900 = ("credit", 900) ∧
    (∀ w d : ℚ, 0 < w → 0 < d →
      resolveWD w d = (if d < w then "debit" else "credit", max w d)) ∧
    (∀ w d : ℚ, (resolveWD w d).1 = "debit" ∨ (resolveWD w d).1 = "credit") := by
  refine ⟨by with_unfolding_all rfl, by with_unfolding_all rfl, ?_, ?_⟩
  · intro w d hw hd
    rw [resolveWD, if_neg, if_neg, if_pos ⟨hw, hd⟩]
    · rintro ⟨hd2, hw0⟩
      exact absurd hw0 (ne_of_gt hw)
    · rintro ⟨hw2, hd0⟩
      exact absurd hd0 (ne_of_gt hd)
  · intro w d
    rw [resolveWD]
    split
    · left; rfl
    · split
      · right; rfl
      · split
        · by_cases h : d < w
          · left; simp [h]
          · right; simp [h]
        · left; rfl

/-- Witness: both-nonzero tie-break at (2, 1) gives debit of 2. -/
theorem c7_dual_amount_resolution_witness : resolveWD 2 1 = ("debit", 2) := by
  have h := c7_dual_amount_resolution.2.2.1 2 1
    (of_decide_eq_true (by with_unfolding_all rfl))
    (of_decide_eq_true (by with_unfolding_all rfl))
  rw [h]
  with_unfolding_all rfl

/-! ### Claim C8: two-digit year normalization -/

/-- C8: the regex line parser widens a two-digit year below 50 to 2000+y
and 50 or more to 1900+y, and the line "01/02/23 TEST PAYMENT 500.00
1500.00" (closing balance present) yields the date 2023-02-01. -/
theorem c8_two_digit_year :
    (∀ y : Nat, y < 100 →
      normYearText y = if y < 50 then 2000 + y else 1900 + y) ∧
    (parse_transactions_from_text "01/02/23 TEST PAYMENT 500.00 1500.00").1.map
      Tx.date = ["2023-02-01"] := by
  constructor
  · intro y hy
    rw [normYearText, if_pos hy]
  · with_unfolding_all rfl

/-- Witness: year 23 widens to 2023. -/
theorem c8_two_digit_year_witness : normYearText 23 = 2023 := by
  have h := c8_two_digit_year.1 23 (by decide)
  rw [h]
  decide

/-! ### Claim C5: column-map interval layout -/

theorem buildColumnMap_head (p : String × ℚ × ℚ) (l : List (String × ℚ × ℚ)) :
    ∃ r, (buildColumnMapSorted (p :: l)).get? 0 = some (p.1, p.2.1 - 20, r) := by
  obtain ⟨k, hx, hx1⟩ := p
  cases l with
  | nil => exact ⟨1000, rfl⟩
  | cons q rest =>
    obtain ⟨k2, nx0, nx1⟩ := q
    exact ⟨nx0, rfl⟩

theorem buildColumnMap_step :
    ∀ (l : List (String × ℚ × ℚ)) (i : Nat) (a b : String × ℚ × ℚ),
      (buildColumnMapSorted l).get? i = some a →
      (buildColumnMapSorted l).get? (i + 1) = some b →
      a.2.2 = b.2.1 + 20 := by
  intro l
  induction l with
  | nil =>
    intro i a b ha _
    simp [buildColumnMapSorted] at ha
  | cons p rest ih =>
    intro i a b ha hb
    cases rest with
    | nil =>
      obtain ⟨k, hx, hx1⟩ := p
      cases i with
      | zero => simp [buildColumnMapSorted] at hb
      | succ n => simp [buildColumnMapSorted] at ha
    | cons q rest2 =>
      obtain ⟨k, hx, hx1⟩ := p
      obtain ⟨k2, nx0, nx1⟩ := q
      cases i with
      | zero =>
        have ha2 : a = (k, hx - 20, nx0) := by
          simpa [buildColumnMapSorted] using ha.symm
        obtain ⟨r, hr⟩ := buildColumnMap_head (k2, nx0, nx1) rest2
        have hb2 : b = (k2, nx0 - 20, r) := by
          have : (buildColumnMapSorted ((k2, nx0, nx1) :: rest2)).get? 0 = some b := by
            simpa [buildColumnMapSorted] using hb
          rw [hr] at this
          exact (Option.some_inj.mp this).symm
        rw [ha2, hb2]
        show nx0 = nx0 - 20 + 20
        ring
      | succ n =>
        have ha2 : (buildColumnMapSorted ((k2, nx0, nx1) :: rest2)).get? n = some a := by
          simpa [buildColumnMapSorted] using ha
        have hb2 : (buildColumnMapSorted ((k2, nx0, nx1) :: rest2)).get? (n + 1) = some b := by
          simpa [buildColumnMapSorted] using hb
        exact ih n a b ha2 hb2

/-- C5 fails as stated: on headers found at x0 = 100 and x0 = 200 the
derived intervals are (80, 200) and (180, 1000): the first column's right
edge (200) does not equal the second column's left edge (180) -- every
column's left edge is padded 20 to the left, not only the first -- and the
two intervals overlap (190 lies strictly inside both). -/
theorem c5_contiguity_counterexample :
    detect_header_intervals [("Date", 100, 130), ("Narration", 200, 260)] =
      [("Date", 80, 200), ("Narration", 180, 1000)] ∧
    ¬((200 : ℚ) = 180) ∧
    ((80 : ℚ) < 190 ∧ (190 : ℚ) < 200 ∧ (180 : ℚ) < 190 ∧ (190 : ℚ) < 1000) :=
  of_decide_eq_true (by with_unfolding_all rfl)

/-- C5 amended: in every column map built by header detection, each
column's right edge equals the next column's left edge PLUS the 20-unit
pad (the next header's unpadded x0), so consecutive intervals overlap on a
band of width 20 instead of being contiguous; only the last column ends at
the 1000 sentinel. -/
theorem c5_column_interval_layout (found : List (String × ℚ × ℚ)) (i : Nat)
    (a b : String × ℚ × ℚ)
    (ha : (detect_header_intervals found).get? i = some a)
    (hb : (detect_header_intervals found).get? (i + 1) = some b) :
    a.2.2 = b.2.1 + 20 :=
  buildColumnMap_step (pySort headerXLe found) i a b ha hb

/-- Witness: the two-header instance, where 200 = 180 + 20. -/
theorem c5_column_interval_layout_witness :
    (("Date", 80, 200) : String × ℚ × ℚ).2.2 =
      (("Narration", 180, 1000) : String × ℚ × ℚ).2.1 + 20 :=
  c5_column_interval_layout [("Date", 100, 130), ("Narration", 200, 260)] 0
    ("Date", 80, 200) ("Narration", 180, 1000)
    (of_decide_eq_true (by with_unfolding_all rfl))
    (of_decide_eq_true (by with_unfolding_all rfl))

/-! ### Claim C3: footer validation -/

/-- C3 fails as stated: the layout strategy's validation engine reads only
the LAST page's text (pdf.pages[-1]), not the full document text; footer
totals printed on an earlier page are missed (foundFooter stays false and
the expected count stays 0) even though the full document text contains
them, as the text-strategy engine run on the joined text shows. -/
theorem c3_footer_counterexample :
    (_extract_footer_validation c3Pages []).foundFooter = false ∧
    (_extract_footer_validation c3Pages []).expectedDrCount = 0 ∧
    (textValidation (String.intercalate "\n" c3Pages)).foundFooter = some true ∧
    (textValidation (String.intercalate "\n" c3Pages)).expectedDrCount = some 7 :=
  of_decide_eq_true (by with_unfolding_all rfl)

/-- C3 amended: the text-strategy validation searches the full document
text for the Dr/Cr count patterns and keeps the LAST match of each (the
layout strategy's own engine searches only the last page's text); on text
declaring Dr = 10 (after an earlier subtotal 3) and Cr = 4 with an
extraction of 10 debits and 3 credits, the final validation has matches =
false, expectedCrCount = 4 and actualCrCount = 3; and matches is null
whenever no footer was found. -/
theorem c3_footer_validation :
    ((finalValidation (textValidation c3Text) "pypdf_fallback" c3Txs).matchesKey
        = some false ∧
      (finalValidation (textValidation c3Text) "pypdf_fallback" c3Txs).expectedCrCount = 4 ∧
      (finalValidation (textValidation c3Text) "pypdf_fallback" c3Txs).actualCrCount = 3 ∧
      (finalValidation (textValidation c3Text) "pypdf_fallback" c3Txs).expectedDrCount = 10 ∧
      (finalValidation (textValidation c3Text) "pypdf_fallback" c3Txs).actualDrCount = 10) ∧
    (∀ (v : PyValidation) (pm : String) (txs : List Tx),
      v.foundFooter.getD false = false →
      (finalValidation v pm txs).matchesKey = none) := by
  constructor
  · exact of_decide_eq_true (by with_unfolding_all rfl)
  · intro v pm txs h
    simp [finalValidation, h]

/-- Witness: with no footer information at all, matches is null. -/
theorem c3_footer_validation_witness :
    (finalValidation {} "text" []).matchesKey = none :=
  c3_footer_validation.2 {} "text" [] (by decide)

/-! ### Claim C2: orchestrator fallback order -/

theorem strategyTwo_success (inp : PdfInputs) (l : List Tx) (sv : SlowValid)
    (hsa : inp.slowAvail = true) (hs : inp.slowRet = some (l, sv))
    (hl : l ≠ []) (st : ProcState) :
    strategyTwo inp st =
      { transactions := some l, validation := sv.toPy,
        processingMethod := "pdfplumber_visual" } := by
  have hne : l.isEmpty = false := by
    cases l with
    | nil => exact absurd rfl hl
    | cons a as => rfl
  simp [strategyTwo, hsa, hs, hne]

theorem finalValidation_slow_method (sv : SlowValid) (pm : String)
    (txs : List Tx) : (finalValidation sv.toPy pm txs).method = pm := by
  simp [finalValidation, SlowValid.toPy]

theorem process_fast_success (inp : PdfInputs) (l : List Tx)
    (hfa : inp.fastAvail = true) (hf : inp.fastRet.1 = some l) (hl : l ≠ []) :
    process_document_pdf inp =
      some { processingMethod := "fast_spine", transactions := l,
             transactionCount := l.length,
             validation := finalValidation inp.fastRet.2 "fast_spine" l } := by
  have hne : l.isEmpty = false := by
    cases l with
    | nil => exact absurd rfl hl
    | cons a as => rfl
  simp [process_document_pdf, hfa, hf, hne]

/-- C2: when the fast (balance-spine) strategy produces zero transactions
(an empty list or the Python None of a failed fast parse), the orchestrator
runs the layout strategy next, and if that returns a non-empty list the
response carries processingMethod and validation.method equal to the layout
identifier pdfplumber_visual -- never a fast identifier; and a fast success
with a non-empty list is accepted as-is: the response does not depend on
the later strategies' inputs at all. -/
theorem c2_fallback_order :
    (∀ inp : PdfInputs,
      inp.fastAvail = true →
      (inp.fastRet.1 = some [] ∨ inp.fastRet.1 = none) →
      inp.slowAvail = true →
      ∀ l sv, inp.slowRet = some (l, sv) → l ≠ [] →
      ∃ r, process_document_pdf inp = some r ∧
        r.processingMethod = "pdfplumber_visual" ∧
        r.validation.method = "pdfplumber_visual" ∧
        r.transactions = l ∧
        r.validation.method ≠ "fast_spine" ∧
        r.validation.method ≠ "fast_balance_spine") ∧
    (∀ inp inp' : PdfInputs,
      inp.fastAvail = true → inp'.fastAvail = true →
      inp.fastRet = inp'.fastRet →
      ∀ l, inp.fastRet.1 = some l → l ≠ [] →
      process_document_pdf inp = process_document_pdf inp') := by
  constructor
  · intro inp hfa hfe hsa l sv hs hl
    have hst : ∀ st, strategyTwo inp st =
        { transactions := some l, validation := sv.toPy,
          processingMethod := "pdfplumber_visual" } :=
      strategyTwo_success inp l sv hsa hs hl
    have hproc : process_document_pdf inp =
        some { processingMethod := "pdfplumber_visual", transactions := l,
               transactionCount := l.length,
               validation := finalValidation sv.toPy "pdfplumber_visual" l } := by
      rcases hfe with hfe | hfe
      · simp [process_document_pdf, hfa, hfe, hst]
      · simp [process_document_pdf, hfa, hfe, hst]
    refine ⟨_, hproc, rfl, ?_, rfl, ?_, ?_⟩
    · exact finalValidation_slow_method sv "pdfplumber_visual" l
    · rw [finalValidation_slow_method sv "pdfplumber_visual" l]
      decide
    · rw [finalValidation_slow_method sv "pdfplumber_visual" l]
      decide
  · intro inp inp' hfa hfa' hfr l hf hl
    rw [process_fast_success inp l hfa hf hl,
      process_fast_success inp' l hfa' (by rw [← hfr]; exact hf) hl, hfr]

/-- Witness: concrete inputs where the fast strategy failed (None) and the
layout strategy returned one transaction. -/
theorem c2_fallback_order_witness :
    ∃ r, process_document_pdf c2Inp = some r ∧
      r.processingMethod = "pdfplumber_visual" ∧
      r.validation.method = "pdfplumber_visual" ∧
      r.transactions = [simpleTx "debit"] ∧
      r.validation.method ≠ "fast_spine" ∧
      r.validation.method ≠ "fast_balance_spine" :=
  c2_fallback_order.1 c2Inp rfl (Or.inr rfl) rfl [simpleTx "debit"] {} rfl
    (by simp)

/-! ### Claim C9: regex fallback credit inference -/

/-- C9 fails as stated: the second transaction of c9Text has narration
"NEFT CRX A DR B", which contains "NEFT CR", no arithmetic match exists
(prev balance 9000, candidate amount 500, current balance 700), and yet the
resolved type is debit: the debit-keyword branch (here the " dr "
substring) is checked before the neft-cr fallback list. -/
theorem c9_neft_cr_counterexample :
    ((parse_transactions_from_text c9Text).1).get? 1 = some c9Tx ∧
    containsStr c9Tx.merchantRaw "NEFT CR" = true ∧
    arithScan 9000 700 [500] = none ∧
    c9Tx.transactionType = "debit" :=
  of_decide_eq_true (by with_unfolding_all rfl)

/-- C9 amended: a transaction with no arithmetic match is resolved by the
narration keyword heuristics, and a narration containing "neft cr"
resolves to credit UNLESS the earlier-checked debit keywords (" dr ",
trailing " dr", or "debit") fire while none of the credit keywords
(" cr ", trailing " cr", or "credit") do. -/
theorem c9_fallback_credit_inference :
    (∀ (pb : ℚ) (t : Tx),
      arithScan pb t.closingBalance ((t.rawAmounts.getD []).dropLast) = none →
      (resolveOne pb t).transactionType = keywordTypeLoop t.merchantRaw) ∧
    (∀ narr : String,
      containsL (lowerChars narr.data) "neft cr".data = true →
      (drKeywordHit (lowerChars narr.data) = true →
        crKeywordHit (lowerChars narr.data) = true) →
      keywordTypeLoop narr = "credit") := by
  constructor
  · intro pb t h
    simp [resolveOne, h]
  · intro narr hcontains hdr
    rw [keywordTypeLoop]
    by_cases hcr : crKeywordHit (lowerChars narr.data) = true
    · simp [hcr]
    · have hdr2 : drKeywordHit (lowerChars narr.data) = false := by
        cases hval : drKeywordHit (lowerChars narr.data) with
        | false => rfl
        | true => exact absurd (hdr hval) hcr
      have hany : anyCreditKw (lowerChars narr.data) = true := by
        simp only [anyCreditKw, List.any_eq_true]
        refine ⟨"neft cr", by simp, hcontains⟩
      simp [hcr, hdr2, hany]

/-- Witness: the narration "NEFT CR" itself resolves to credit. -/
theorem c9_fallback_credit_inference_witness :
    keywordTypeLoop "NEFT CR" = "credit" :=
  c9_fallback_credit_inference.2 "NEFT CR"
    (of_decide_eq_true (by with_unfolding_all rfl)) (by decide)

/-! ### Claim C4: monotonic chronology -/

theorem dateLeB_total (a b : Tx) : dateLeB a b = true ∨ dateLeB b a = true :=
  lexLeC_total a.date.data b.date.data

theorem dateLeB_trans (a b c : Tx) :
    dateLeB a b = true → dateLeB b c = true → dateLeB a c = true :=
  lexLeC_trans a.date.data b.date.data c.date.data

theorem date_resolveOne (pb : ℚ) (t : Tx) : (resolveOne pb t).date = t.date := by
  unfold resolveOne
  split <;> rfl

theorem date_resolveChain : ∀ (p : Tx) (l : List Tx),
    (resolveChain p l).map Tx.date = l.map Tx.date := by
  intro p l
  induction l generalizing p with
  | nil => rfl
  | cons t ts ih =>
    simp only [resolveChain, List.map_cons]
    rw [date_resolveOne, ih]

theorem date_fixAmountZero (t : Tx) : (fixAmountZero t).date = t.date := by
  unfold fixAmountZero
  split <;> rfl

theorem date_fixFirst (t : Tx) : (fixFirst t).date = t.date := by
  rw [fixFirst, date_fixAmountZero]
  split <;> rfl

theorem date_resolveSingle (t : Tx) : (resolveSingle t).date = t.date := by
  rw [resolveSingle, date_fixAmountZero]

theorem date_resolveTypes (l : List Tx) :
    (resolveTypes l).map Tx.date = l.map Tx.date := by
  match l with
  | [] => rfl
  | [t] =>
    simp only [resolveTypes, List.map_cons, List.map_nil]
    rw [date_resolveSingle]
  | t0 :: t1 :: rest =>
    simp only [resolveTypes, List.map_cons]
    rw [date_fixFirst]
    have h := date_resolveChain t0 (t1 :: rest)
    simp only [List.map_cons] at h ⊢
    rw [h]

theorem pairwise_dates_transfer {l m : List Tx}
    (h : l.map Tx.date = m.map Tx.date)
    (hp : m.Pairwise (fun a b => strLeB a.date b.date = true)) :
    l.Pairwise (fun a b => strLeB a.date b.date = true) := by
  have h1 : (m.map Tx.date).Pairwise (fun a b : String => strLeB a b = true) :=
    (List.pairwise_map).mpr hp
  rw [← h] at h1
  exact (List.pairwise_map).mp h1

theorem c4help (txs0 : List Tx) :
    ((resolveTypes (pySort dateLeB txs0)).map
      (fun t => { t with rawAmounts := none })).Pairwise
      (fun a b => strLeB a.date b.date = true) := by
  have hsorted : (pySort dateLeB txs0).Pairwise
      (fun a b => strLeB a.date b.date = true) :=
    pairwise_pySort dateLeB dateLeB_total dateLeB_trans txs0
  have hmap : ((resolveTypes (pySort dateLeB txs0)).map
      (fun t => { t with rawAmounts := none })).map Tx.date =
      (pySort dateLeB txs0).map Tx.date := by
    rw [List.map_map]
    have hcomp : (Tx.date ∘ fun t : Tx => { t with rawAmounts := none }) = Tx.date := rfl
    rw [hcomp, date_resolveTypes]
  exact pairwise_dates_transfer hmap hsorted

/-- C4 fails as stated: the fast (balance-spine) strategy emits
transactions in positional (page, top) order and never sorts by date; on
c4Words, whose two dated rows carry descending dates, the accepted fast
output is [2023-05-05, 2023-05-04], which is not ascending. -/
theorem c4_chronology_counterexample :
    ((parse_pdf_fast c4Words).1).map (fun l => l.map Tx.date) =
      some ["2023-05-05", "2023-05-04"] ∧
    strLeB "2023-05-05" "2023-05-04" = false :=
  of_decide_eq_true (by with_unfolding_all rfl)

/-- C4 amended: only the text (regex) strategy sorts its output: for every
input text its transaction list is ascending in date (Python string order
on the ISO dates, ties kept stable by the sort); the balance-spine and
layout strategies return transactions in positional order, which need not
be date-sorted. -/
theorem c4_text_output_sorted (text : String) :
    ((parse_transactions_from_text text).1).Pairwise
      (fun a b => strLeB a.date b.date = true) :=
  c4help _

/-! ### Claim C10: type totality of the regex line parser -/

theorem type_arithScan (pb cb : ℚ) :
    ∀ (l : List ℚ) (amt : ℚ) (ty : String),
      arithScan pb cb l = some (amt, ty) → ty = "debit" ∨ ty = "credit" := by
  intro l
  induction l with
  | nil => intro amt ty h; simp [arithScan] at h
  | cons a rest ih =>
    intro amt ty h
    rw [arithScan] at h
    split at h
    · simp at h
      exact Or.inl h.2.symm
    · split at h
      · simp at h
        exact Or.inr h.2.symm
      · exact ih amt ty h

theorem type_keywordTypeLoop (n : String) :
    keywordTypeLoop n = "debit" ∨ keywordTypeLoop n = "credit" := by
  rw [keywordTypeLoop]
  split
  · exact Or.inr rfl
  · split
    · exact Or.inl rfl
    · split
      · exact Or.inr rfl
      · exact Or.inl rfl

theorem type_keywordTypeFirst (n : String) :
    keywordTypeFirst n = "debit" ∨ keywordTypeFirst n = "credit" := by
  rw [keywordTypeFirst]
  split
  · exact Or.inr rfl
  · exact Or.inl rfl

theorem type_resolveOne (pb : ℚ) (t : Tx) :
    (resolveOne pb t).transactionType = "debit" ∨
    (resolveOne pb t).transactionType = "credit" := by
  rcases h : arithScan pb t.closingBalance ((t.rawAmounts.getD []).dropLast)
    with _ | ⟨amt, ty⟩
  · simp only [resolveOne, h]
    exact type_keywordTypeLoop t.merchantRaw
  · simp only [resolveOne, h]
    exact type_arithScan pb t.closingBalance _ amt ty h

theorem type_resolveChain : ∀ (p : Tx) (l : List Tx) (u : Tx),
    u ∈ resolveChain p l →
    u.transactionType = "debit" ∨ u.transactionType = "credit" := by
  intro p l
  induction l generalizing p with
  | nil => intro u hu; simp [resolveChain] at hu
  | cons t ts ih =>
    intro u hu
    simp only [resolveChain, List.mem_cons] at hu
    rcases hu with rfl | hu
    · exact type_resolveOne _ _
    · exact ih _ u hu

theorem type_fixAmountZero (t : Tx) :
    (fixAmountZero t).transactionType = t.transactionType := by
  unfold fixAmountZero
  split <;> rfl

theorem type_resolveSingle (t : Tx) :
    (resolveSingle t).transactionType = "debit" ∨
    (resolveSingle t).transactionType = "credit" := by
  rw [resolveSingle, type_fixAmountZero]
  exact type_keywordTypeFirst t.merchantRaw

theorem type_fixFirst (t : Tx) (h : t.transactionType = "unknown") :
    (fixFirst t).transactionType = "debit" ∨
    (fixFirst t).transactionType = "credit" := by
  rw [fixFirst, type_fixAmountZero, if_pos h]
  exact type_keywordTypeFirst t.merchantRaw

theorem mkDateTx_unknown (d m y rest : List Char) :
    (mkDateTx d m y rest).transactionType = "unknown" := rfl

theorem mem_flush (st2 : Option Tx) (acc : List Tx) (t : Tx) :
    t ∈ (match st2 with | some u => acc ++ [u] | none => acc) →
    t ∈ acc ∨ st2 = some t := by
  cases st2 with
  | none => intro h; exact Or.inl h
  | some u =>
    intro h
    simp only [List.mem_append, List.mem_singleton] at h
    rcases h with h | rfl
    · exact Or.inl h
    · exact Or.inr rfl

theorem lineStep_unknown (acc : List Tx) (cur : Option Tx) (line : String)
    (h1 : ∀ t ∈ acc, t.transactionType = "unknown")
    (h2 : ∀ t, cur = some t → t.transactionType = "unknown") :
    (∀ t ∈ (lineStep (acc, cur) line).1, t.transactionType = "unknown") ∧
    (∀ t, (lineStep (acc, cur) line).2 = some t →
      t.transactionType = "unknown") := by
  simp only [lineStep]
  by_cases hlen : (pyStrip line.data).length < 5
  · simp only [if_pos hlen]
    exact ⟨h1, h2⟩
  · simp only [if_neg hlen]
    by_cases hhdr : (headerKeywords.any fun kw =>
        containsL (lowerChars (pyStrip line.data)) kw.data) = true
    · simp only [if_pos hhdr]
      exact ⟨h1, h2⟩
    · simp only [if_neg hhdr]
      rcases hmatch : matchDateStart (pyStrip line.data) with _ | ⟨d, m, y, rest⟩
      · -- continuation line
        simp only [hmatch]
        cases cur with
        | none => exact ⟨h1, h2⟩
        | some t0 =>
          have ht0 : t0.transactionType = "unknown" := h2 t0 rfl
          by_cases hskip : (contSkipKeywords.any fun kw =>
              containsL (lowerChars (pyStrip line.data)) kw.data) = true
          · simp only [if_pos hskip]
            exact ⟨h1, h2⟩
          · simp only [if_neg hskip]
            by_cases hclean : 2 < (collapseWs (pyStrip
                (List.map punctToSpace (pyStrip line.data)))).length
            · simp only [if_pos hclean]
              refine ⟨h1, ?_⟩
              intro t ht
              have heq := Option.some_inj.mp ht
              rw [← heq]
              exact ht0
            · simp only [if_neg hclean]
              exact ⟨h1, h2⟩
      · -- a date line: flush cur, open mkDateTx
        simp only [hmatch]
        refine ⟨?_, ?_⟩
        · intro t ht
          rcases mem_flush cur acc t ht with hmem | heq
          · exact h1 t hmem
          · exact h2 t heq
        · intro t ht
          have heq := Option.some_inj.mp ht
          rw [← heq]
          exact mkDateTx_unknown _ _ _ _

theorem buildLoop_unknown (lines : List String) :
    ∀ (acc : List Tx) (cur : Option Tx),
      (∀ t ∈ acc, t.transactionType = "unknown") →
      (∀ t, cur = some t → t.transactionType = "unknown") →
      (∀ t ∈ (lines.foldl lineStep (acc, cur)).1,
        t.transactionType = "unknown") ∧
      (∀ t, (lines.foldl lineStep (acc, cur)).2 = some t →
        t.transactionType = "unknown") := by
  induction lines with
  | nil => intro acc cur h1 h2; exact ⟨h1, h2⟩
  | cons l ls ih =>
    intro acc cur h1 h2
    have h := lineStep_unknown acc cur l h1 h2
    have hstep : lineStep (acc, cur) l =
        ((lineStep (acc, cur) l).1, (lineStep (acc, cur) l).2) := rfl
    rw [List.foldl_cons, hstep]
    exact ih (lineStep (acc, cur) l).1 (lineStep (acc, cur) l).2 h.1 h.2

theorem textTxs0_unknown (text : String) :
    ∀ x ∈ textTxs0 text, x.transactionType = "unknown" := by
  intro x hx
  have h := buildLoop_unknown ((splitOnChar '\n' text.data).map String.mk)
    [] none (by intro t ht; simp at ht) (by intro t ht; simp at ht)
  have hx2 : x ∈ (match (((splitOnChar '\n' text.data).map String.mk).foldl
      lineStep ([], none)).2 with
    | some t => (((splitOnChar '\n' text.data).map String.mk).foldl
        lineStep ([], none)).1 ++ [t]
    | none => (((splitOnChar '\n' text.data).map String.mk).foldl
        lineStep ([], none)).1) := hx
  rcases mem_flush _ _ x hx2 with hmem | heq
  · exact h.1 x hmem
  · exact h.2 x heq

theorem resolveTypes_types (l : List Tx)
    (hu : ∀ x ∈ l, x.transactionType = "unknown") :
    ∀ u ∈ resolveTypes l,
      u.transactionType = "debit" ∨ u.transactionType = "credit" := by
  match l with
  | [] => intro u hu2; simp [resolveTypes] at hu2
  | [t] =>
    intro u hu2
    simp only [resolveTypes, List.mem_singleton] at hu2
    subst hu2
    exact type_resolveSingle t
  | t0 :: t1 :: rest =>
    intro u hu2
    simp only [resolveTypes, List.mem_cons] at hu2
    rcases hu2 with rfl | hu2
    · exact type_fixFirst t0 (hu t0 (by simp))
    · exact type_resolveChain t0 (t1 :: rest) u hu2

/-- C10: every transaction returned by parse_transactions_from_text has
transactionType debit or credit -- the creation-time value "unknown" never
survives to the returned list -- and the internal raw_amounts field is
removed from every returned transaction. -/
theorem c10_type_totality (text : String) :
    ∀ t ∈ (parse_transactions_from_text text).1,
      (t.transactionType = "debit" ∨ t.transactionType = "credit") ∧
      t.rawAmounts = none := by
  intro t ht
  have ht2 : t ∈ (resolveTypes (pySort dateLeB (textTxs0 text))).map
      (fun u => ({ u with rawAmounts := none } : Tx)) := ht
  rw [List.mem_map] at ht2
  obtain ⟨u, hu, rfl⟩ := ht2
  refine ⟨?_, rfl⟩
  show u.transactionType = "debit" ∨ u.transactionType = "credit"
  refine resolveTypes_types (pySort dateLeB (textTxs0 text)) ?_ u hu
  intro x hx
  exact textTxs0_unknown text x ((mem_pySort dateLeB (textTxs0 text) x).mp hx)

/-- Witness: the single transaction parsed from c10Text. -/
theorem c10_type_totality_witness :
    (c10Tx.transactionType = "debit" ∨ c10Tx.transactionType = "credit") ∧
    c10Tx.rawAmounts = none :=
  c10_type_totality c10Text c10Tx (of_decide_eq_true (by with_unfolding_all rfl))

/-! ### Claim C1: arithmetic closure of the spine strategy -/

theorem emitPair_props (prev curr : NTok) (all_words : List Token) (t : Tx)
    (ht : t ∈ emitPair prev curr all_words) :
    signedAmount t = round2 (curr.numeric_value - prev.numeric_value) ∧
    t.closingBalance = curr.numeric_value := by
  simp only [emitPair] at ht
  by_cases hd : |round2 (curr.numeric_value - prev.numeric_value)| < 1 / 100
  · rw [if_pos hd] at ht
    simp at ht
  · rw [if_neg hd] at ht
    rcases hdate : _find_nearest_date_token curr.tok all_words with _ | d
    · rw [hdate] at ht
      simp at ht
    · rw [hdate] at ht
      simp only [List.mem_singleton] at ht
      subst ht
      refine ⟨?_, rfl⟩
      by_cases hneg : round2 (curr.numeric_value - prev.numeric_value) < 0
      · simp [signedAmount, hneg, abs_of_neg hneg]
      · have hne : ("credit" : String) ≠ "debit" := by decide
        simp [signedAmount, hneg, hne]

theorem inferAux_closure (all_words : List Token) :
    ∀ (rest : List NTok) (prev : NTok),
      (∀ w ∈ prev :: rest, isCentB w.numeric_value = true) →
      ∀ t ∈ inferAux all_words prev rest,
        ∃ i pv cv,
          (prev :: rest).get? i = some pv ∧
          (prev :: rest).get? (i + 1) = some cv ∧
          signedAmount t = round2 (cv.numeric_value - pv.numeric_value) ∧
          t.closingBalance = cv.numeric_value ∧
          round2 (pv.numeric_value + signedAmount t) = cv.numeric_value := by
  intro rest
  induction rest with
  | nil =>
    intro prev _ t ht
    simp [inferAux] at ht
  | cons curr rest2 ih =>
    intro prev hcent t ht
    simp only [inferAux, List.mem_append] at ht
    rcases ht with ht | ht
    · refine ⟨0, prev, curr, rfl, rfl, ?_⟩
      have hp : isCentB prev.numeric_value = true := hcent prev (by simp)
      have hc : isCentB curr.numeric_value = true := hcent curr (by simp)
      obtain ⟨a, ha⟩ := isCentB_eq _ hp
      obtain ⟨b, hb⟩ := isCentB_eq _ hc
      have hprops := emitPair_props prev curr all_words t ht
      have hsub : curr.numeric_value - prev.numeric_value = ((b - a : ℤ) : ℚ) / 100 := by
        rw [ha, hb]
        push_cast
        ring
      have hdelta : round2 (curr.numeric_value - prev.numeric_value) =
          curr.numeric_value - prev.numeric_value := by
        rw [hsub, round2_cent, ← hsub]
      refine ⟨hprops.1, hprops.2, ?_⟩
      rw [hprops.1, hdelta]
      have hsum : prev.numeric_value + (curr.numeric_value - prev.numeric_value) =
          curr.numeric_value := by ring
      rw [hsum, hb, round2_cent]
    · have hcent2 : ∀ w ∈ curr :: rest2, isCentB w.numeric_value = true := by
        intro w hw
        exact hcent w (List.mem_cons_of_mem prev hw)
      obtain ⟨i, pv, cv, h1, h2, h3, h4, h5⟩ := ih curr hcent2 t ht
      refine ⟨i + 1, pv, cv, ?_, ?_, h3, h4, h5⟩
      · rw [List.get?_cons_succ]
        exact h1
      · rw [List.get?_cons_succ]
        exact h2

theorem parse_pdf_fast_some (all_words : List Token) (out : List Tx)
    (h : (parse_pdf_fast all_words).1 = some out) :
    out = _infer_from_deltas
      (_find_best_balance_spine (_filter_numeric_tokens all_words)) all_words := by
  simp only [parse_pdf_fast, _validate_mathematically] at h
  by_cases h3 : (_find_best_balance_spine (_filter_numeric_tokens all_words)).length < 3
  · rw [if_pos h3] at h
    simp at h
  · rw [if_neg h3] at h
    by_cases he : (_infer_from_deltas
        (_find_best_balance_spine (_filter_numeric_tokens all_words)) all_words).isEmpty
    · simp [he] at h
    · simp only [he] at h
      simp at h
      exact h.symm

/-- C1 fails as stated: on c1Words the selected spine contains the
non-two-decimal balance 302.004; the emitted transaction's signed amount is
round(302.004 - 200, 2) = 102.00 and its closingBalance is 302.004, but
round(prev.value + signed_delta, 2) = 102 + 200 = 302, which is not
curr.value. -/
theorem c1_closure_counterexample :
    (parse_pdf_fast c1Words).1 = some [c1Tx] ∧
    (selectedSpine c1Words).map NTok.numeric_value = [100, 200, 302.004, 400, 500] ∧
    signedAmount c1Tx = round2 (302.004 - 200) ∧
    c1Tx.closingBalance = 302.004 ∧
    ¬(round2 (200 + signedAmount c1Tx) = c1Tx.closingBalance) := by
  refine ⟨by with_unfolding_all rfl, by with_unfolding_all rfl,
    by with_unfolding_all rfl, rfl, ?_⟩
  have e1 : round2 (200 + signedAmount c1Tx) = 302 := by with_unfolding_all rfl
  have e2 : c1Tx.closingBalance = 302.004 := rfl
  rw [e1, e2]
  norm_num

/-- C1 amended: whenever every value of the selected balance spine is an
exact two-decimal amount, every transaction the fast path returns comes
from a consecutive spine pair (prev, curr) with signed amount (negative
for debit, positive for credit) equal to round(curr.value - prev.value, 2),
closingBalance equal to curr.value, and round(prev.value + signed_delta, 2)
= curr.value; no later step changes this (the returned list IS the inferred
list).  Without the two-decimal restriction the closure identity can fail,
as the counterexample shows. -/
theorem c1_spine_arithmetic (all_words : List Token) (out : List Tx)
    (hout : (parse_pdf_fast all_words).1 = some out)
    (hcent : ∀ w ∈ selectedSpine all_words, isCentB w.numeric_value = true) :
    ∀ t ∈ out, ∃ i pv cv,
      (selectedSpine all_words).get? i = some pv ∧
      (selectedSpine all_words).get? (i + 1) = some cv ∧
      signedAmount t = round2 (cv.numeric_value - pv.numeric_value) ∧
      t.closingBalance = cv.numeric_value ∧
      round2 (pv.numeric_value + signedAmount t) = cv.numeric_value := by
  intro t ht
  rw [parse_pdf_fast_some all_words out hout] at ht
  rcases hsp : selectedSpine all_words with _ | ⟨p, rest⟩
  · have ht2 : t ∈ (match selectedSpine all_words with
      | [] => ([] : List Tx)
      | p :: rest => inferAux all_words p rest) := ht
    rw [hsp] at ht2
    simp at ht2
  · have hcent2 : ∀ w ∈ p :: rest, isCentB w.numeric_value = true := by
      rw [← hsp]
      exact hcent
    have ht2 : t ∈ inferAux all_words p rest := by
      have ht3 : t ∈ (match selectedSpine all_words with
        | [] => ([] : List Tx)
        | p :: rest => inferAux all_words p rest) := ht
      rw [hsp] at ht3
      exact ht3
    obtain ⟨i, pv, cv, h1, h2, h3, h4, h5⟩ := inferAux_closure all_words rest p hcent2 t ht2
    exact ⟨i, pv, cv, h1, h2, h3, h4, h5⟩

/-- Witness: the cent-valued stream c1wWords; its first returned
transaction (a credit of 150.50 against the pair 100.00 to 250.50)
satisfies the closure identity. -/
theorem c1_spine_arithmetic_witness :
    ∃ i pv cv,
      (selectedSpine c1wWords).get? i = some pv ∧
      (selectedSpine c1wWords).get? (i + 1) = some cv ∧
      signedAmount c1wTx = round2 (cv.numeric_value - pv.numeric_value) ∧
      c1wTx.closingBalance = cv.numeric_value ∧
      round2 (pv.numeric_value + signedAmount c1wTx) = cv.numeric_value := by
  have hout : (parse_pdf_fast c1wWords).1 = some [c1wTx, c1wTx2] := by
    with_unfolding_all rfl
  have hall : (selectedSpine c1wWords).all
      (fun w => isCentB w.numeric_value) = true := by
    with_unfolding_all rfl
  have hcent : ∀ w ∈ selectedSpine c1wWords, isCentB w.numeric_value = true := by
    intro w hw
    exact List.all_eq_true.mp hall w hw
  exact c1_spine_arithmetic c1wWords [c1wTx, c1wTx2] hout hcent c1wTx
    (List.mem_cons_self _ _)
